import Mathlib

/-
  Verification of the interest-accrual core of nocom-v1 (src/x.py).

  The three Python functions are pure arithmetic over unbounded integers,
  with Python floor division.  We embed them over Lean's Int, translating
  every Python a // b as Int.fdiv a b, which is floor division exactly as
  in Python.
-/

namespace Nocom

def WAD : Int := 1000000000000000000

def BASE : Int := 1000000000

def SECONDS_PER_YEAR : Int := 31536000

/-- Embedding of apy_to_rate_per_second from src/x.py: apy is in tenths of
a percent; the per-second WAD-scaled rate is apy * WAD floor-divided by
1000 * SECONDS_PER_YEAR. -/
def apy_to_rate_per_second (apy : Int) : Int :=
  Int.fdiv (apy * WAD) (1000 * SECONDS_PER_YEAR)

/-- Embedding of compute_multiplier from src/x.py.  The Python body sets
res to BASE, and overwrites it with BASE + offset when dt is nonzero; we
render that as a conditional expression with the same let bindings and
the same order of floor divisions. -/
def compute_multiplier (rate_per_second : Int) (dt : Int) : Int :=
  let diff := Int.fdiv WAD BASE
  if dt ≠ 0 then
    let exp_minus_one := dt - 1
    let exp_minus_two := if dt > 2 then dt - 2 else 0
    let rate := rate_per_second
    let base_power_two := Int.fdiv (rate * rate) WAD
    let base_power_three := Int.fdiv (base_power_two * rate) WAD
    let temp := dt * exp_minus_one
    let second_term := Int.fdiv (temp * base_power_two) 2
    let third_term := Int.fdiv (temp * exp_minus_two * base_power_three) 6
    let offset := Int.fdiv (dt * rate + second_term + third_term) diff
    BASE + offset
  else
    BASE

/-- Embedding of calculate_interest from src/x.py: when current_epoch
exceeds start_epoch, dt is computed as current_epoch * epoch_duration
minus start_epoch * epoch_duration, exactly as the source does, and the
multiplier is applied with a floor division by the literal 10^9. -/
def calculate_interest (principal start_epoch current_epoch epoch_duration
    interest_rate : Int) : Int :=
  let rate_per_second := apy_to_rate_per_second interest_rate
  if current_epoch > start_epoch then
    let start_time := start_epoch * epoch_duration
    let current_time := current_epoch * epoch_duration
    let dt := current_time - start_time
    let multiplier := compute_multiplier rate_per_second dt
    Int.fdiv (principal * multiplier) 1000000000
  else
    principal

def WADq : ℚ := 1000000000000000000

def BASEq : ℚ := 1000000000

/-- Exact-rational shadow of the offset computation inside
compute_multiplier: the same terms in the same order, with every floor
division replaced by exact rational division, including the final rescale
by WAD / BASE. -/
def offsetExact (rate : ℚ) (dt : ℕ) : ℚ :=
  let d : ℚ := (dt : ℚ)
  let exp_minus_one := d - 1
  let exp_minus_two := if dt > 2 then d - 2 else 0
  let base_power_two := rate * rate / WADq
  let base_power_three := base_power_two * rate / WADq
  let temp := d * exp_minus_one
  let second_term := temp * base_power_two / 2
  let third_term := temp * exp_minus_two * base_power_three / 6
  (d * rate + second_term + third_term) / (WADq / BASEq)

/-- The truncated Taylor form BASE * (x + x^2/2 + x^3/6) with
x = rate * dt / WAD, as the spec describes the polynomial. -/
def taylorOffset (rate : ℚ) (dt : ℕ) : ℚ :=
  let x := rate * (dt : ℚ) / WADq
  BASEq * (x + x ^ 2 / 2 + x ^ 3 / 6)

/-- The truncated binomial form: the first three non-constant terms of
(1 + y)^dt - 1 with y = rate / WAD, that is BASE times
dt * y + C(dt,2) * y^2 + C(dt,3) * y^3. -/
def binomOffset (rate : ℚ) (dt : ℕ) : ℚ :=
  let y := rate / WADq
  let d : ℚ := (dt : ℚ)
  BASEq * (d * y + d * (d - 1) / 2 * y ^ 2 + d * (d - 1) * (d - 2) / 6 * y ^ 3)

/-- Floor division by a positive constant is monotone in the dividend. -/
theorem fdiv_le_fdiv_right {a b c : Int} (hc : 0 < c) (h : a ≤ b) :
    Int.fdiv a c ≤ Int.fdiv b c := by
  rw [Int.fdiv_eq_ediv _ hc.le, Int.fdiv_eq_ediv _ hc.le]
  exact Int.ediv_le_ediv hc h

/-- The clamped dt - 2 factor of compute_multiplier is non-negative. -/
theorem clamp_nonneg (dt : Int) : 0 ≤ if 2 < dt then dt - 2 else 0 := by
  split_ifs <;> omega

/-- The clamped dt - 2 factor of compute_multiplier is monotone. -/
theorem clamp_mono {a b : Int} (h : a ≤ b) :
    (if 2 < a then a - 2 else 0) ≤ if 2 < b then b - 2 else 0 := by
  split_ifs <;> omega

/-- For a non-negative rate and non-negative elapsed time the multiplier is
at least BASE: the offset is a floor division of non-negative terms. -/
theorem multiplier_ge_BASE (r dt : Int) (hr : 0 ≤ r) (hdt : 0 ≤ dt) :
    BASE ≤ compute_multiplier r dt := by
  by_cases hne : dt = 0
  · simp [compute_multiplier, hne]
  · have hdt1 : 1 ≤ dt := lt_of_le_of_ne hdt (Ne.symm hne)
    have hb2 : 0 ≤ Int.fdiv (r * r) WAD :=
      Int.fdiv_nonneg (mul_nonneg hr hr) (by decide)
    have hb3 : 0 ≤ Int.fdiv (Int.fdiv (r * r) WAD * r) WAD :=
      Int.fdiv_nonneg (mul_nonneg hb2 hr) (by decide)
    have htemp : 0 ≤ dt * (dt - 1) := mul_nonneg hdt (by omega)
    have hsum : 0 ≤ dt * r +
        Int.fdiv (dt * (dt - 1) * Int.fdiv (r * r) WAD) 2 +
        Int.fdiv (dt * (dt - 1) * (if dt > 2 then dt - 2 else 0) *
          Int.fdiv (Int.fdiv (r * r) WAD * r) WAD) 6 := by
      have h1 : 0 ≤ dt * r := mul_nonneg hdt hr
      have h2 : 0 ≤ Int.fdiv (dt * (dt - 1) * Int.fdiv (r * r) WAD) 2 :=
        Int.fdiv_nonneg (mul_nonneg htemp hb2) (by decide)
      have h3 : 0 ≤ Int.fdiv (dt * (dt - 1) * (if dt > 2 then dt - 2 else 0) *
          Int.fdiv (Int.fdiv (r * r) WAD * r) WAD) 6 :=
        Int.fdiv_nonneg (mul_nonneg (mul_nonneg htemp (clamp_nonneg dt)) hb3)
          (by decide)
      omega
    have hoff : 0 ≤ Int.fdiv (dt * r +
        Int.fdiv (dt * (dt - 1) * Int.fdiv (r * r) WAD) 2 +
        Int.fdiv (dt * (dt - 1) * (if dt > 2 then dt - 2 else 0) *
          Int.fdiv (Int.fdiv (r * r) WAD * r) WAD) 6) (Int.fdiv WAD BASE) :=
      Int.fdiv_nonneg hsum (by decide)
    simp only [compute_multiplier, ne_eq, hne, not_false_iff, if_true]
    omega

end Nocom

namespace Nocom

/-- C5: calculate_interest returns the principal unchanged whenever the
current epoch does not exceed the start epoch, for any principal, any
epoch duration and any rate. -/
theorem calculate_interest_non_advancing
    (P s c D R : Int) (h : c ≤ s) :
    calculate_interest P s c D R = P := by
  unfold calculate_interest
  simp [not_lt.mpr h]

theorem calculate_interest_non_advancing_witness :
    (0 : Int) ≤ 0 ∧ calculate_interest 7 0 0 600 40 = 7 :=
  ⟨le_refl 0, calculate_interest_non_advancing 7 0 0 600 40 (le_refl 0)⟩

/-- C8: apy_to_rate_per_second performs exactly one floor division of
apy * 10^18 by 1000 * 31536000, and sends 0 to 0. -/
theorem apy_to_rate_per_second_spec :
    (∀ apy : Int,
      apy_to_rate_per_second apy =
        Int.fdiv (apy * 10 ^ 18) (1000 * 31536000)) ∧
    apy_to_rate_per_second 0 = 0 := by
  constructor
  · intro apy
    rfl
  · rfl

/-- C1: for dt greater or equal zero, compute_multiplier returns BASE when
dt is zero and otherwise BASE plus the floor-divided third-order polynomial
offset, with every floor division at exactly the stated position. -/
theorem compute_multiplier_formula (r dt : Int) (h : 0 ≤ dt) :
    compute_multiplier r dt =
      if dt = 0 then BASE
      else
        BASE +
          Int.fdiv
            (dt * r +
              Int.fdiv (dt * (dt - 1) * Int.fdiv (r * r) WAD) 2 +
              Int.fdiv
                (dt * (dt - 1) * (if 2 < dt then dt - 2 else 0) *
                  Int.fdiv (Int.fdiv (r * r) WAD * r) WAD) 6)
            (Int.fdiv WAD BASE) := by
  by_cases hdt : dt = 0
  · simp [compute_multiplier, hdt]
  · simp [compute_multiplier, hdt]

theorem compute_multiplier_formula_witness :
    (0 : Int) ≤ 4 ∧
    compute_multiplier 5 4 =
      if (4 : Int) = 0 then BASE
      else
        BASE +
          Int.fdiv
            (4 * 5 +
              Int.fdiv (4 * (4 - 1) * Int.fdiv (5 * 5) WAD) 2 +
              Int.fdiv
                (4 * (4 - 1) * (if (2 : Int) < 4 then 4 - 2 else 0) *
                  Int.fdiv (Int.fdiv (5 * 5) WAD * 5) WAD) 6)
            (Int.fdiv WAD BASE) :=
  ⟨by decide, compute_multiplier_formula 5 4 (by decide)⟩

/-- C2: when the current epoch exceeds the start epoch, calculate_interest
equals the principal times the multiplier at elapsed time
(current - start) * epoch_duration, floor-divided by BASE; the source's
current * D - start * D agrees with (current - start) * D. -/
theorem calculate_interest_formula (P s c D R : Int) (h : s < c) :
    calculate_interest P s c D R =
      Int.fdiv
        (P * compute_multiplier (apy_to_rate_per_second R) ((c - s) * D))
        BASE := by
  simp only [calculate_interest]
  rw [if_pos h, Int.sub_mul]
  rfl

theorem calculate_interest_formula_witness :
    (0 : Int) < 1 ∧
    calculate_interest 10 0 1 2 3 =
      Int.fdiv
        (10 * compute_multiplier (apy_to_rate_per_second 3) ((1 - 0) * 2))
        BASE :=
  ⟨by decide, calculate_interest_formula 10 0 1 2 3 (by decide)⟩

/-- C6: for a fixed non-negative rate the multiplier is monotonically
non-decreasing in the elapsed time. -/
theorem compute_multiplier_mono_time (r dt1 dt2 : Int)
    (hr : 0 ≤ r) (h1 : 0 ≤ dt1) (h12 : dt1 < dt2) :
    compute_multiplier r dt1 ≤ compute_multiplier r dt2 := by
  have hb2 : 0 ≤ Int.fdiv (r * r) WAD :=
    Int.fdiv_nonneg (mul_nonneg hr hr) (by decide)
  have hb3 : 0 ≤ Int.fdiv (Int.fdiv (r * r) WAD * r) WAD :=
    Int.fdiv_nonneg (mul_nonneg hb2 hr) (by decide)
  by_cases hz : dt1 = 0
  · subst hz
    have : compute_multiplier r 0 = BASE := by simp [compute_multiplier]
    rw [this]
    exact multiplier_ge_BASE r dt2 hr h12.le
  · have hdt1 : 1 ≤ dt1 := lt_of_le_of_ne h1 (Ne.symm hz)
    have hne2 : dt2 ≠ 0 := by omega
    have htemp1 : 0 ≤ dt1 * (dt1 - 1) := mul_nonneg h1 (by omega)
    have htemp2 : 0 ≤ dt2 * (dt2 - 1) := mul_nonneg (by omega) (by omega)
    have htemp : dt1 * (dt1 - 1) ≤ dt2 * (dt2 - 1) :=
      mul_le_mul h12.le (by omega) (by omega) (by omega)
    have hclamp1 : 0 ≤ if dt1 > 2 then dt1 - 2 else 0 := clamp_nonneg dt1
    have hclamp : (if dt1 > 2 then dt1 - 2 else 0) ≤
        if dt2 > 2 then dt2 - 2 else 0 := clamp_mono h12.le
    have hfirst : dt1 * r ≤ dt2 * r := mul_le_mul_of_nonneg_right h12.le hr
    have hsecond :
        Int.fdiv (dt1 * (dt1 - 1) * Int.fdiv (r * r) WAD) 2 ≤
        Int.fdiv (dt2 * (dt2 - 1) * Int.fdiv (r * r) WAD) 2 :=
      fdiv_le_fdiv_right (by decide) (mul_le_mul_of_nonneg_right htemp hb2)
    have hthird :
        Int.fdiv (dt1 * (dt1 - 1) * (if dt1 > 2 then dt1 - 2 else 0) *
          Int.fdiv (Int.fdiv (r * r) WAD * r) WAD) 6 ≤
        Int.fdiv (dt2 * (dt2 - 1) * (if dt2 > 2 then dt2 - 2 else 0) *
          Int.fdiv (Int.fdiv (r * r) WAD * r) WAD) 6 := by
      refine fdiv_le_fdiv_right (by decide)
        (mul_le_mul_of_nonneg_right ?_ hb3)
      exact mul_le_mul htemp hclamp hclamp1 htemp2
    have hoff :
        Int.fdiv (dt1 * r +
          Int.fdiv (dt1 * (dt1 - 1) * Int.fdiv (r * r) WAD) 2 +
          Int.fdiv (dt1 * (dt1 - 1) * (if dt1 > 2 then dt1 - 2 else 0) *
            Int.fdiv (Int.fdiv (r * r) WAD * r) WAD) 6) (Int.fdiv WAD BASE) ≤
        Int.fdiv (dt2 * r +
          Int.fdiv (dt2 * (dt2 - 1) * Int.fdiv (r * r) WAD) 2 +
          Int.fdiv (dt2 * (dt2 - 1) * (if dt2 > 2 then dt2 - 2 else 0) *
            Int.fdiv (Int.fdiv (r * r) WAD * r) WAD) 6) (Int.fdiv WAD BASE) :=
      fdiv_le_fdiv_right (by decide) (by omega)
    simp only [compute_multiplier, ne_eq, hz, hne2, not_false_iff, if_true]
    omega

theorem compute_multiplier_mono_time_witness :
    (0 : Int) ≤ 0 ∧ (0 : Int) ≤ 3 ∧ (0 : Int) < 3 ∧
    compute_multiplier 7 3 ≤ compute_multiplier 7 5 :=
  ⟨by decide, by decide, by decide,
    compute_multiplier_mono_time 7 3 5 (by decide) (by decide) (by decide)⟩

/-- C7: for a fixed positive elapsed time the multiplier is monotonically
non-decreasing in the per-second rate. -/
theorem compute_multiplier_mono_rate (dt r1 r2 : Int)
    (hdt : 0 < dt) (hr1 : 0 ≤ r1) (hr : r1 < r2) :
    compute_multiplier r1 dt ≤ compute_multiplier r2 dt := by
  have hr2 : 0 ≤ r2 := le_trans hr1 hr.le
  have hne : dt ≠ 0 := by omega
  have htemp : 0 ≤ dt * (dt - 1) := mul_nonneg hdt.le (by omega)
  have hclamp : 0 ≤ if dt > 2 then dt - 2 else 0 := clamp_nonneg dt
  have hb2a : 0 ≤ Int.fdiv (r1 * r1) WAD :=
    Int.fdiv_nonneg (mul_nonneg hr1 hr1) (by decide)
  have hb2 : Int.fdiv (r1 * r1) WAD ≤ Int.fdiv (r2 * r2) WAD :=
    fdiv_le_fdiv_right (by decide) (mul_le_mul hr.le hr.le hr1 hr2)
  have hb2b : 0 ≤ Int.fdiv (r2 * r2) WAD :=
    Int.fdiv_nonneg (mul_nonneg hr2 hr2) (by decide)
  have hb3a : 0 ≤ Int.fdiv (Int.fdiv (r1 * r1) WAD * r1) WAD :=
    Int.fdiv_nonneg (mul_nonneg hb2a hr1) (by decide)
  have hb3 : Int.fdiv (Int.fdiv (r1 * r1) WAD * r1) WAD ≤
      Int.fdiv (Int.fdiv (r2 * r2) WAD * r2) WAD :=
    fdiv_le_fdiv_right (by decide) (mul_le_mul hb2 hr.le hr1 hb2b)
  have hfirst : dt * r1 ≤ dt * r2 := mul_le_mul_of_nonneg_left hr.le hdt.le
  have hsecond :
      Int.fdiv (dt * (dt - 1) * Int.fdiv (r1 * r1) WAD) 2 ≤
      Int.fdiv (dt * (dt - 1) * Int.fdiv (r2 * r2) WAD) 2 :=
    fdiv_le_fdiv_right (by decide) (mul_le_mul_of_nonneg_left hb2 htemp)
  have hthird :
      Int.fdiv (dt * (dt - 1) * (if dt > 2 then dt - 2 else 0) *
        Int.fdiv (Int.fdiv (r1 * r1) WAD * r1) WAD) 6 ≤
      Int.fdiv (dt * (dt - 1) * (if dt > 2 then dt - 2 else 0) *
        Int.fdiv (Int.fdiv (r2 * r2) WAD * r2) WAD) 6 :=
    fdiv_le_fdiv_right (by decide)
      (mul_le_mul_of_nonneg_left hb3 (mul_nonneg htemp hclamp))
  have hoff :
      Int.fdiv (dt * r1 +
        Int.fdiv (dt * (dt - 1) * Int.fdiv (r1 * r1) WAD) 2 +
        Int.fdiv (dt * (dt - 1) * (if dt > 2 then dt - 2 else 0) *
          Int.fdiv (Int.fdiv (r1 * r1) WAD * r1) WAD) 6) (Int.fdiv WAD BASE) ≤
      Int.fdiv (dt * r2 +
        Int.fdiv (dt * (dt - 1) * Int.fdiv (r2 * r2) WAD) 2 +
        Int.fdiv (dt * (dt - 1) * (if dt > 2 then dt - 2 else 0) *
          Int.fdiv (Int.fdiv (r2 * r2) WAD * r2) WAD) 6) (Int.fdiv WAD BASE) :=
    fdiv_le_fdiv_right (by decide) (by omega)
  simp only [compute_multiplier, ne_eq, hne, not_false_iff, if_true]
  omega

theorem compute_multiplier_mono_rate_witness :
    (0 : Int) < 4 ∧ (0 : Int) ≤ 2 ∧ (2 : Int) < 9 ∧
    compute_multiplier 2 4 ≤ compute_multiplier 9 4 :=
  ⟨by decide, by decide, by decide,
    compute_multiplier_mono_rate 4 2 9 (by decide) (by decide) (by decide)⟩

/-- C4: with a non-negative principal, positive epoch duration,
non-negative rate and advancing epochs, the accrued value is at least the
principal. -/
theorem calculate_interest_ge_principal (P s c D R : Int)
    (hP : 0 ≤ P) (hD : 0 < D) (hR : 0 ≤ R) (hsc : s < c) :
    P ≤ calculate_interest P s c D R := by
  have hrate : 0 ≤ apy_to_rate_per_second R :=
    Int.fdiv_nonneg (mul_nonneg hR (by decide)) (by decide)
  have hdt : 0 ≤ c * D - s * D := by
    have h := mul_nonneg (sub_nonneg.mpr hsc.le) hD.le
    rw [Int.sub_mul] at h
    exact h
  have hm : BASE ≤ compute_multiplier (apy_to_rate_per_second R)
      (c * D - s * D) := multiplier_ge_BASE _ _ hrate hdt
  simp only [calculate_interest]
  rw [if_pos hsc]
  calc P = Int.fdiv (P * BASE) BASE := (Int.mul_fdiv_cancel P (by decide)).symm
    _ ≤ Int.fdiv (P * compute_multiplier (apy_to_rate_per_second R)
          (c * D - s * D)) BASE :=
        fdiv_le_fdiv_right (by decide) (mul_le_mul_of_nonneg_left hm hP)

theorem calculate_interest_ge_principal_witness :
    (0 : Int) ≤ 5 ∧ (0 : Int) < 600 ∧ (0 : Int) ≤ 40 ∧ (0 : Int) < 2 ∧
    5 ≤ calculate_interest 5 0 2 600 40 :=
  ⟨by decide, by decide, by decide, by decide,
    calculate_interest_ge_principal 5 0 2 600 40
      (by decide) (by decide) (by decide) (by decide)⟩

/-- C10: a zero APY never changes the principal: the rate converts to zero,
the multiplier collapses to BASE for every dt, and the final floor division
by BASE is exact, for all integer inputs. -/
theorem calculate_interest_zero_rate (P s c D : Int) :
    calculate_interest P s c D 0 = P := by
  have hrate : apy_to_rate_per_second 0 = 0 := by rfl
  have hcm : ∀ dt : Int, compute_multiplier 0 dt = BASE := by
    intro dt
    by_cases hdt : dt = 0
    · simp [compute_multiplier, hdt]
    · simp [compute_multiplier, hdt]
  simp only [calculate_interest, hrate, hcm]
  by_cases h : s < c
  · rw [if_pos h]
    exact Int.mul_fdiv_cancel P (by decide)
  · rw [if_neg h]

/-- C3 counterexample: at rate = WAD and dt = 2 the exact-rational offset
of the code, 3 * BASE, differs from the Taylor form
BASE * (x + x^2/2 + x^3/6) with x = rate * dt / WAD, which is 16/3 * BASE:
the implemented polynomial is not the Taylor expansion of exp x - 1. -/
theorem offset_taylor_counterexample :
    ¬ offsetExact WADq 2 = taylorOffset WADq 2 := by
  norm_num [offsetExact, taylorOffset, WADq, BASEq]

/-- C3 amended: over exact rational arithmetic, for every rate r at least
zero and every dt above zero, the computed offset (with the clamped dt - 2
factor) equals BASE times the truncated binomial expansion of
(1 + r/WAD)^dt - 1 up to the third-order term, i.e. the coefficients are
the binomial coefficients C(dt,1), C(dt,2), C(dt,3), not the Taylor
coefficients dt, dt^2/2, dt^3/6 of exp x - 1 at x = r * dt / WAD. -/
theorem offsetExact_eq_binom (r : ℚ) (dt : ℕ) (hr : 0 ≤ r) (hdt : 0 < dt) :
    offsetExact r dt = binomOffset r dt := by
  have key : ((dt : ℚ) * ((dt : ℚ) - 1)) *
      (if dt > 2 then (dt : ℚ) - 2 else 0) =
      (dt : ℚ) * ((dt : ℚ) - 1) * ((dt : ℚ) - 2) := by
    by_cases h : 2 < dt
    · simp [h]
    · have h2 : dt ≤ 2 := by omega
      interval_cases dt <;> norm_num
  unfold offsetExact binomOffset
  simp only []
  rw [key]
  have hW : WADq ≠ 0 := by norm_num [WADq]
  have hB : BASEq ≠ 0 := by norm_num [BASEq]
  field_simp
  ring

theorem offsetExact_eq_binom_witness :
    (0 : ℚ) ≤ WADq ∧ 0 < 3 ∧ offsetExact WADq 3 = binomOffset WADq 3 :=
  ⟨by norm_num [WADq], by norm_num,
    offsetExact_eq_binom WADq 3 (by norm_num [WADq]) (by norm_num)⟩

/-- C9: in the concrete scenario (1000 tokens at WAD scale, 4.0 percent
APY, 52560 epochs of 600 seconds, one year), the result strictly exceeds
the principal and the earned interest is closer to the continuous
compounding value 40.81 * 10^18 than to the simple-interest value
40 * 10^18. -/
theorem concrete_scenario_interest :
    1000 * 10 ^ 18 < calculate_interest (1000 * 10 ^ 18) 0 52560 600 40 ∧
    |calculate_interest (1000 * 10 ^ 18) 0 52560 600 40 - 1000 * 10 ^ 18 -
        4081 * 10 ^ 16| <
      |calculate_interest (1000 * 10 ^ 18) 0 52560 600 40 - 1000 * 10 ^ 18 -
        40 * 10 ^ 18| := by
  decide

end Nocom
